import Mathlib

/-!
A verification development for the icesmtp SMTP protocol engine.

Go strings and byte slices are modelled as `List Char`, one `Char` per byte
(the protocol text handled by the engine is ASCII; the Go code indexes bytes,
which coincides with characters on that fragment).  Machine integers
(`int`, `int64`) are modelled as `Int`; counters that start at 0 and only
grow are `Nat` and are cast where the code compares them against a limit.
Collaborator interfaces (Storage, SenderPolicy, the per-verb dispatch) are
modelled as function parameters, mirroring the Go interfaces.  Randomness
(session/envelope ids), wall-clock time and raw I/O are threaded in as
explicit inputs where a modelled path consumes them.
-/

namespace Icesmtp

/-- A Go string / byte slice: one `Char` per byte. -/
abbrev GoStr := List Char

/-- Shorthand turning a Lean string literal into a `GoStr`. -/
def gs (s : String) : GoStr := s.toList

/-- Go `strings.TrimSuffix` / `bytes.TrimSuffix`: drop `suf` from the end of
`s` when it is a suffix, otherwise return `s` unchanged. -/
def goTrimSuffix (s suf : GoStr) : GoStr :=
  if suf.isSuffixOf s then s.take (s.length - suf.length) else s

/-- Go `unicode.IsSpace` restricted to the ASCII range (the engine only meets
ASCII whitespace in command lines). -/
def goIsSpace (c : Char) : Bool :=
  c = ' ' || c = '\t' || c = '\n' || c = '\x0b' || c = '\x0c' || c = '\r'

/-- Drop leading whitespace. -/
def goTrimLeftSpace : GoStr → GoStr
  | [] => []
  | c :: t => if goIsSpace c then goTrimLeftSpace t else c :: t

/-- Go `strings.TrimSpace` (ASCII): drop whitespace from both ends. -/
def goTrimSpace (s : GoStr) : GoStr :=
  ((goTrimLeftSpace (goTrimLeftSpace s).reverse)).reverse

/-- Go `strings.ToUpper` on one ASCII character. -/
def goToUpperChar (c : Char) : Char :=
  if 'a' ≤ c ∧ c ≤ 'z' then Char.ofNat (c.toNat - 32) else c

/-- Go `strings.ToUpper` (ASCII). -/
def goToUpper (s : GoStr) : GoStr := s.map goToUpperChar

/-- Go `strings.Index` / `bytes.IndexByte` specialised to one character:
index of the first occurrence, `none` when absent. -/
def goIndexChar (s : GoStr) (c : Char) : Option Nat :=
  match s with
  | [] => none
  | a :: t =>
    if a = c then some 0
    else match goIndexChar t c with
      | some i => some (i + 1)
      | none => none

/-- Go `strings.LastIndex` specialised to one character: index of the last
occurrence, `none` when absent. -/
def goLastIndexChar (s : GoStr) (c : Char) : Option Nat :=
  match s with
  | [] => none
  | a :: t =>
    match goLastIndexChar t c with
    | some i => some (i + 1)
    | none => if a = c then some 0 else none

/-- Go `strings.HasSuffix` with a one-character needle. -/
def endsWithChar (s : GoStr) (c : Char) : Bool :=
  match s.getLast? with
  | none => false
  | some a => a = c

/-- Go `strings.Fields`: split around runs of whitespace, no empty fields. -/
def goFields : GoStr → List GoStr
  | [] => []
  | c :: t =>
    if goIsSpace c then goFields t
    else
      match goFields t with
      | [] => [[c]]
      | f :: fs =>
        match t with
        | [] => [[c]]
        | d :: _ => if goIsSpace d then [c] :: f :: fs else (c :: f) :: fs

/-! ## DATA framing (`DataLineReader`, parser.go) -/

/-- `line = bytes.TrimSuffix(line, "\r\n"); line = bytes.TrimSuffix(line, "\n")`
as performed by `IsTerminator` and `ParseCommand`. -/
def trimCRLF (line : GoStr) : GoStr :=
  goTrimSuffix (goTrimSuffix line (gs "\r\n")) (gs "\n")

/-- `DataLineReader.IsTerminator`: after stripping the trailing CRLF (or bare
LF) the line is a single dot. -/
def isTerminator (line : GoStr) : Bool :=
  trimCRLF line = ['.']

/-- Go `strings.HasPrefix` with a one-character needle (also used for
`len(line) > 0 && line[0] == c`). -/
def startsWithChar (s : GoStr) (c : Char) : Bool :=
  match s with
  | [] => false
  | a :: _ => a = c

/-- `DataLineReader.UnstuffLine`: remove one leading dot when present
(`line[1:]`). -/
def unstuffLine (line : GoStr) : GoStr :=
  if startsWithChar line '.' then line.tail else line

/-- `DataLineReader.StuffLine`: prepend a dot when the line begins with one. -/
def stuffLine (line : GoStr) : GoStr :=
  if startsWithChar line '.' then '.' :: line else line

/-- The loop body of `Engine.readData` (storage.go): consume CRLF-framed lines
until the terminator, enforcing `MaxLineLength` and `MaxMessageSize` (0 = no
cap), unstuffing each body line into the accumulator.  Running out of input
before the terminator models the `ReadBytes` error at EOF.  Timeouts and
context cancellation are I/O-level concerns outside this model. -/
def readDataLoop (maxLineLength maxMessageSize : Int) :
    List GoStr → GoStr → Option GoStr
  | [], _ => none
  | l :: rest, acc =>
    if isTerminator l then some acc
    else if 0 < maxLineLength ∧ maxLineLength < (l.length : Int) then none
    else if 0 < maxMessageSize ∧ maxMessageSize < (acc.length + l.length : Int) then none
    else readDataLoop maxLineLength maxMessageSize rest (acc ++ unstuffLine l)

/-- `Engine.readData`: the loop started on an empty buffer. -/
def readData (maxLineLength maxMessageSize : Int) (lines : List GoStr) : Option GoStr :=
  readDataLoop maxLineLength maxMessageSize lines []

/-! ## Session states and command verbs (statemachine.go, command.go) -/

/-- `State`: the SMTP session states. -/
inductive State where
  | disconnected
  | connected
  | greeted
  | identified
  | mailFrom
  | rcptTo
  | data
  | dataDone
  | startTLS
  | terminating
  | terminated
  | aborted
deriving DecidableEq, Repr, Fintype

/-- `State.InTransaction`. -/
def State.inTransaction (s : State) : Bool :=
  s = .mailFrom || s = .rcptTo || s = .data

/-- `State.IsTerminal`. -/
def State.isTerminal (s : State) : Bool :=
  s = .terminated || s = .aborted

/-- `CommandVerb`: the recognised verbs plus `CmdUnknown`. -/
inductive CommandVerb where
  | HELO | EHLO | MAIL | RCPT | DATA | RSET | NOOP
  | QUIT | VRFY | EXPN | HELP | STARTTLS | AUTH
  | unknown
deriving DecidableEq, Repr, Fintype

/-- `ParseCommandVerb`: uppercase and match against the fixed verb list. -/
def parseCommandVerb (s : GoStr) : CommandVerb :=
  let v := goToUpper (goTrimSpace s)
  if v = gs "HELO" then .HELO
  else if v = gs "EHLO" then .EHLO
  else if v = gs "MAIL" then .MAIL
  else if v = gs "RCPT" then .RCPT
  else if v = gs "DATA" then .DATA
  else if v = gs "RSET" then .RSET
  else if v = gs "NOOP" then .NOOP
  else if v = gs "QUIT" then .QUIT
  else if v = gs "VRFY" then .VRFY
  else if v = gs "EXPN" then .EXPN
  else if v = gs "HELP" then .HELP
  else if v = gs "STARTTLS" then .STARTTLS
  else if v = gs "AUTH" then .AUTH
  else .unknown

/-- `AllowedCommands` (command.go): the verbs the engine accepts per state. -/
def allowedCommands (state : State) : List CommandVerb :=
  match state with
  | .greeted => [.HELO, .EHLO, .QUIT, .NOOP, .HELP, .RSET]
  | .identified =>
      [.HELO, .EHLO, .MAIL, .QUIT, .NOOP, .HELP, .RSET, .VRFY, .EXPN, .STARTTLS, .AUTH]
  | .mailFrom => [.RCPT, .RSET, .QUIT, .NOOP, .HELP]
  | .rcptTo => [.RCPT, .DATA, .RSET, .QUIT, .NOOP, .HELP]
  | _ => []

/-- `IsCommandAllowed` (command.go). -/
def isCommandAllowed (state : State) (cmd : CommandVerb) : Bool :=
  (allowedCommands state).contains cmd

/-- `CommandRequiresArgument`. -/
def commandRequiresArgument (cmd : CommandVerb) : Bool :=
  match cmd with
  | .HELO | .EHLO | .MAIL | .RCPT => true
  | _ => false

/-- `CommandForbidsArgument`. -/
def commandForbidsArgument (cmd : CommandVerb) : Bool :=
  match cmd with
  | .DATA | .RSET | .QUIT | .STARTTLS => true
  | _ => false

/-! ## State machine transitions (statemachine.go) -/

/-- `validTransitions`: all legal state transitions. -/
def validTransitions (s : State) : List State :=
  match s with
  | .disconnected => [.connected]
  | .connected => [.greeted, .terminated, .aborted]
  | .greeted => [.identified, .terminating, .aborted]
  | .identified => [.identified, .mailFrom, .startTLS, .terminating, .aborted]
  | .mailFrom => [.rcptTo, .identified, .terminating, .aborted]
  | .rcptTo => [.rcptTo, .data, .identified, .terminating, .aborted]
  | .data => [.dataDone, .aborted]
  | .dataDone => [.identified, .terminating, .aborted]
  | .startTLS => [.greeted, .aborted]
  | .terminating => [.terminated]
  | .terminated => []
  | .aborted => []

/-- `StateTransitionError` (message field omitted where empty). -/
structure StateTransitionError where
  current : State
  attempted : State
deriving DecidableEq, Repr

/-- `StateMachine.canTransition`. -/
def canTransition (s t : State) : Bool :=
  (validTransitions s).contains t

/-- `StateMachine.Transition`: the new state on success, the error (with the
state left unchanged) otherwise. -/
def smTransition (s t : State) : Except StateTransitionError State :=
  if canTransition s t then .ok t
  else .error ⟨s, t⟩

/-- `StateMachine.nextStateForCommand`. -/
def nextStateForCommand (s : State) (cmd : CommandVerb) : State :=
  match cmd with
  | .HELO | .EHLO => .identified
  | .MAIL => .mailFrom
  | .RCPT => .rcptTo
  | .DATA => .data
  | .RSET => if s.inTransaction then .identified else s
  | .QUIT => .terminating
  | .STARTTLS => .startTLS
  | _ => s

/-- `StateMachine.TransitionForCommand`: the machine's state afterwards and
the error, if any.  A failed command (`success = false`) changes nothing. -/
def transitionForCommand (s : State) (cmd : CommandVerb) (success : Bool) :
    State × Option StateTransitionError :=
  if ¬ success then (s, none)
  else
    let newState := nextStateForCommand s cmd
    if newState = s then (s, none)
    else
      match smTransition s newState with
      | .ok t => (t, none)
      | .error e => (s, some e)

/-- The state after `TransitionForCommand`, discarding the error (the engine
ignores it at every call site). -/
def transitionForCommandSt (s : State) (cmd : CommandVerb) (success : Bool) : State :=
  (transitionForCommand s cmd success).1

/-- `StateMachine.Reset`: in-transaction or DataDone states attempt a
transition to Identified; the transition error, when the table forbids it,
is silently dropped and the state stays put. -/
def smReset (s : State) : State :=
  if s.inTransaction || s = .dataDone then
    match smTransition s .identified with
    | .ok t => t
    | .error _ => s
  else s

/-- `StateMachine.Abort`: attempt a transition to Aborted, ignoring errors. -/
def smAbort (s : State) : State :=
  match smTransition s .aborted with
  | .ok t => t
  | .error _ => s

/-- `StateMachine.TLSComplete`: StartTLS returns to Greeted; in any other
state the call errors and changes nothing. -/
def smTLSComplete (s : State) : State :=
  if s = .startTLS then
    match smTransition s .greeted with
    | .ok t => t
    | .error _ => s
  else s

/-- `StateMachine.DataComplete`: Data advances to DataDone; in any other
state the call errors and changes nothing. -/
def smDataComplete (s : State) : State :=
  if s = .data then
    match smTransition s .dataDone with
    | .ok t => t
    | .error _ => s
  else s

/-! ## Replies and responses (reply.go) -/

/-- `ReplyCode`, a three-digit SMTP code. -/
abbrev ReplyCode := Int

/-- `ReplyCode.IsPositive`: 2xx or 3xx. -/
def replyIsPositive (c : ReplyCode) : Bool :=
  200 ≤ c ∧ c < 400

/-- `Response` (the `EnhancedCode` pointer is nil on every engine path
modelled here and is omitted). -/
structure Response where
  code : ReplyCode
  lines : List GoStr
deriving DecidableEq, Repr

/-- `NewResponse`. -/
def newResponse (code : ReplyCode) (text : GoStr) : Response :=
  ⟨code, [text]⟩

/-- `NewMultilineResponse`. -/
def newMultilineResponse (code : ReplyCode) (lines : List GoStr) : Response :=
  ⟨code, lines⟩

/-- `ResponseOK`. -/
def responseOK : Response := newResponse 250 (gs "OK")

/-- `ResponseStartMailInput`. -/
def responseStartMailInput : Response :=
  newResponse 354 (gs "Start mail input; end with <CRLF>.<CRLF>")

/-- `ResponseSyntaxError`. -/
def responseSyntaxError : Response :=
  newResponse 500 (gs "Syntax error, command unrecognized")

/-- `ResponseSyntaxErrorParams`. -/
def responseSyntaxErrorParams : Response :=
  newResponse 501 (gs "Syntax error in parameters or arguments")

/-- `ResponseCommandNotImplemented`. -/
def responseCommandNotImplemented : Response :=
  newResponse 502 (gs "Command not implemented")

/-- `ResponseBadSequence`. -/
def responseBadSequence : Response :=
  newResponse 503 (gs "Bad sequence of commands")

/-- `ResponseTransactionFailed`. -/
def responseTransactionFailed : Response :=
  newResponse 554 (gs "Transaction failed")

/-- `ResponseBye`. -/
def responseBye : Response := newResponse 221 (gs "Bye")

/-! ## Command parsing (parser.go) -/

/-- The parser error taxonomy (`ErrCommandTooLong`, `ErrEmptyCommand`, ...);
the `ParseError` wrapper's position/context strings carry no control flow
and are omitted. -/
inductive ParseErr where
  | commandTooLong
  | emptyCommand
  | invalidCommand
  | missingArgument
  | unexpectedArgument
  | invalidPath
  | invalidAddress
  | missingColon
  | invalidSyntax
deriving DecidableEq, Repr

/-- ESMTP parameters: the Go map modelled as the association list of its
insertions; `mapGet` below returns the last-inserted binding, as the map
does. -/
abbrev ESMTPParams := List (GoStr × GoStr)

/-- Lookup mirroring Go map indexing over the insertion list. -/
def mapGet (params : ESMTPParams) (key : GoStr) : Option GoStr :=
  match params with
  | [] => none
  | (k, v) :: rest =>
    match mapGet rest key with
    | some w => some w
    | none => if k = key then some v else none

/-- `Command`: a parsed SMTP command. -/
structure Command where
  verb : CommandVerb
  raw : GoStr
  argument : GoStr
  params : ESMTPParams
deriving DecidableEq, Repr

/-- `splitCommand`: split at the first space into verb and argument. -/
def splitCommand : GoStr → GoStr × GoStr
  | [] => ([], [])
  | c :: t =>
    if c = ' ' then ([], t)
    else
      let (v, a) := splitCommand t
      (c :: v, a)

/-- `parseESMTPParams`: everything after the first `>`, split on whitespace;
each token `KEY=VALUE` with the key uppercased, or a bare uppercased keyword
with an empty value.  (The Go function's error result is always nil.) -/
def parseESMTPParams (arg : GoStr) : ESMTPParams :=
  match goIndexChar arg '>' with
  | none => []
  | some closeIdx =>
    let remainder := goTrimSpace (arg.drop (closeIdx + 1))
    if remainder = [] then []
    else
      (goFields remainder).map fun part =>
        match goIndexChar part '=' with
        | none => (goToUpper part, [])
        | some eqIdx => (goToUpper (part.take eqIdx), part.drop (eqIdx + 1))

/-- `Parser.ParseCommand` with the parser's `MaxCommandLength` field as an
argument: length cap, CRLF strip, verb split and recognition, argument
presence rules, and ESMTP parameter extraction for MAIL/RCPT. -/
def parseCommand (maxCommandLength : Int) (line : GoStr) : Except ParseErr Command :=
  if 0 < maxCommandLength ∧ maxCommandLength < (line.length : Int) then
    .error .commandTooLong
  else
    let line := trimCRLF line
    if line = [] then .error .emptyCommand
    else
      let (verb, arg) := splitCommand line
      let cmdVerb := parseCommandVerb verb
      if cmdVerb = .unknown then .error .invalidCommand
      else
        let argStr := goTrimSpace arg
        if commandRequiresArgument cmdVerb ∧ argStr = [] then .error .missingArgument
        else if commandForbidsArgument cmdVerb ∧ argStr ≠ [] then .error .unexpectedArgument
        else
          let params :=
            if cmdVerb = .MAIL ∨ cmdVerb = .RCPT then parseESMTPParams argStr else []
          .ok ⟨cmdVerb, line, argStr, params⟩

/-! ## Path parsing (parser.go) -/

/-- `MailPath`: a parsed reverse- or forward-path. -/
structure MailPath where
  address : GoStr
  sourceRoute : GoStr
  isNull : Bool
deriving DecidableEq, Repr

/-- `isValidDomainChar`. -/
def isValidDomainChar (c : Char) : Bool :=
  ('a' ≤ c ∧ c ≤ 'z') || ('A' ≤ c ∧ c ≤ 'Z') || ('0' ≤ c ∧ c ≤ '9') || c = '-' || c = '.'

/-- `isValidAddress`: the engine's address validation.  The split point is
`strings.LastIndex(addr, "@")`. -/
def isValidAddress (addr : GoStr) : Bool :=
  if addr = [] then false
  else
    match goLastIndexChar addr '@' with
    | none => false
    | some atIdx =>
      if atIdx = 0 ∨ atIdx = addr.length - 1 then false
      else
        let localPart := addr.take atIdx
        let dom := addr.drop (atIdx + 1)
        if localPart = [] ∨ dom = [] then false
        else if startsWithChar dom '.' || endsWithChar dom '.' then false
        else if startsWithChar dom '-' || endsWithChar dom '-' then false
        else dom.all isValidDomainChar

/-- `extractPath`: the `<path>` portion, null path, optional source route,
then address validation. -/
def extractPath (s : GoStr) : Except ParseErr MailPath :=
  let s := goTrimSpace s
  if ¬ startsWithChar s '<' then .error .invalidPath
  else
    match goIndexChar s '>' with
    | none => .error .invalidPath
    | some closeIdx =>
      let inner := (s.take closeIdx).drop 1
      if inner = [] then .ok ⟨[], [], true⟩
      else
        let (sourceRoute, addr) :=
          if startsWithChar inner '@' then
            match goIndexChar inner ':' with
            | some colonIdx => (inner.take (colonIdx + 1), inner.drop (colonIdx + 1))
            | none => (([] : GoStr), inner)
          else (([] : GoStr), inner)
        if isValidAddress addr then .ok ⟨addr, sourceRoute, false⟩
        else .error .invalidAddress

/-- `ParseMailPath`: require the (case-insensitively uppercased) `FROM:` or
`TO:` head, then extract the path from the original argument. -/
def parseMailPath (arg : GoStr) (pfx : GoStr) : Except ParseErr MailPath :=
  let arg := goTrimSpace arg
  let upperArg := goToUpper arg
  if ¬ (pfx ++ [':']).isPrefixOf upperArg then .error .missingColon
  else extractPath (goTrimSpace (arg.drop (pfx.length + 1)))

/-! ## HELO hostname parsing (parser.go) -/

/-- `isAlphanumeric`. -/
def isAlphanumeric (c : Char) : Bool :=
  ('a' ≤ c ∧ c ≤ 'z') || ('A' ≤ c ∧ c ≤ 'Z') || ('0' ≤ c ∧ c ≤ '9')

/-- `isValidHostname`: DNS-name shape, 255 bytes max, dot-separated labels of
1..63 alphanumeric-or-hyphen characters starting and ending alphanumeric. -/
def isValidHostname (s : GoStr) : Bool :=
  if s = [] ∨ 255 < s.length then false
  else
    (s.splitOn '.').all fun label =>
      match label, label.getLast? with
      | c :: t, some lastc =>
        (c :: t).length ≤ 63 && isAlphanumeric c && isAlphanumeric lastc &&
          (c :: t).all fun d => isAlphanumeric d || d = '-'
      | _, _ => false

/-- `ParseHeloHostname`: trimmed argument, address literal passthrough when
properly bracketed, otherwise hostname validation. -/
def parseHeloHostname (arg : GoStr) : Except ParseErr GoStr :=
  let hostname := goTrimSpace arg
  if hostname = [] then .error .missingArgument
  else if startsWithChar hostname '[' then
    if ¬ endsWithChar hostname ']' then .error .invalidSyntax
    else .ok hostname
  else if ¬ isValidHostname hostname then .error .invalidSyntax
  else .ok hostname

/-! ## Session configuration (session.go, TLS provider files) -/

/-- `TLSPolicy`. -/
inductive TLSPolicy where
  | disabled | optional | required | immediate
deriving DecidableEq, Repr

/-- The negotiated TLS state a successful handshake reports. -/
structure TLSConnectionState where
  version : GoStr := []
  cipherSuite : GoStr := []
deriving DecidableEq, Repr

/-- `SessionLimits`: the count/size knobs.  The three duration fields
(`CommandTimeout`, `DataTimeout`, `IdleTimeout`) carry wall-clock time and
are outside this model; `MaxAuthAttempts` gates no modelled path. -/
structure SessionLimits where
  maxMessageSize : Int := 0
  maxRecipients : Int := 0
  maxCommandLength : Int := 0
  maxLineLength : Int := 0
  maxErrors : Int := 0
  maxTransactions : Int := 0
deriving DecidableEq, Repr

/-- `ExtensionSet`. -/
structure ExtensionSet where
  STARTTLS : Bool := false
  SIZE : Bool := false
  eightBitMIME : Bool := false
  PIPELINING : Bool := false
  ENHANCEDSTATUSCODES : Bool := false
  SMTPUTF8 : Bool := false
  AUTH : Bool := false
  VRFY : Bool := false
  EXPN : Bool := false
  HELP : Bool := false
deriving DecidableEq, Repr

/-- `SessionConfig`: the data fields the modelled paths read.  Collaborator
interfaces (Storage, SenderPolicy, Mailbox, the dispatch) enter as function
parameters at their call sites; `TLSProvider` only ever matters through its
nil-ness on these paths, captured by `hasTLSProvider`.  `Hooks` and `Logger`
are taken as nil. -/
structure SessionConfig where
  serverHostname : GoStr := []
  limits : SessionLimits := {}
  tlsPolicy : TLSPolicy := .disabled
  hasTLSProvider : Bool := false
  extensions : ExtensionSet := {}
deriving DecidableEq, Repr

/-- `SessionStats`: the counters the modelled paths touch (times and byte
counts are I/O-level and omitted). -/
structure SessionStats where
  commandCount : Nat := 0
  transactionCount : Nat := 0
  messageCount : Nat := 0
  recipientCount : Nat := 0
deriving DecidableEq, Repr

/-- `StandardLimitChecker.CheckErrorCount` as the boolean "limit breached":
`MaxErrors > 0 && count >= MaxErrors`. -/
def checkErrorLimit (limits : SessionLimits) (count : Nat) : Bool :=
  0 < limits.maxErrors ∧ limits.maxErrors ≤ (count : Int)

/-- `NewEngineWithConn` wires `config.Limits.MaxCommandLength` into the
parser but substitutes 512 when it is 0. -/
def effectiveMaxCommandLength (configured : Int) : Int :=
  if configured = 0 then 512 else configured

/-! ## Envelope builder (envelope_builder.go) -/

/-- `StandardEnvelopeBuilder`: its pure state.  `receivedAt` (wall clock) and
the metadata snapshot are omitted; `id` arrives as the random input of the
constructor.  The single outstanding data writer is folded into the two
flags. -/
structure BuilderSt where
  id : GoStr
  mailFrom : Option MailPath := none
  recipients : List MailPath := []
  esmtpParams : ESMTPParams := []
  data : GoStr := []
  dataWriterOpen : Bool := false
  dataWriterClosed : Bool := false
  finalized : Bool := false
deriving DecidableEq, Repr

/-- The envelope builder error taxonomy. -/
inductive BuildErr where
  | envelopeFinalized
  | noMailFrom
  | noRecipients
  | dataWriterOpen
  | writerAlreadyOpen
  | writerClosed
deriving DecidableEq, Repr

/-- A finalized `StandardEnvelope` (id, paths, params, data). -/
structure Envelope where
  id : GoStr
  mailFrom : MailPath
  recipients : List MailPath
  esmtpParams : ESMTPParams
  data : GoStr
  finalized : Bool
deriving DecidableEq, Repr

/-- `NewStandardEnvelopeBuilder` with the random id as input. -/
def newStandardEnvelopeBuilder (freshId : GoStr) : BuilderSt :=
  { id := freshId }

/-- `StandardEnvelopeBuilder.SetMailFrom`. -/
def builderSetMailFrom (b : BuilderSt) (path : MailPath) (params : ESMTPParams) :
    Except BuildErr BuilderSt :=
  if b.finalized then .error .envelopeFinalized
  else .ok { b with mailFrom := some path, esmtpParams := params }

/-- `StandardEnvelopeBuilder.AddRecipient`. -/
def builderAddRecipient (b : BuilderSt) (path : MailPath) : Except BuildErr BuilderSt :=
  if b.finalized then .error .envelopeFinalized
  else .ok { b with recipients := b.recipients ++ [path] }

/-- `StandardEnvelopeBuilder.DataWriter`: open the single writer. -/
def builderDataWriter (b : BuilderSt) : Except BuildErr BuilderSt :=
  if b.finalized then .error .envelopeFinalized
  else if b.dataWriterOpen then .error .writerAlreadyOpen
  else .ok { b with dataWriterOpen := true }

/-- `envelopeDataWriter.Write`: rejected after `Close`, otherwise appended to
the builder's buffer (a `bytes.Buffer` write never falls short). -/
def writerWrite (b : BuilderSt) (p : GoStr) : Except BuildErr BuilderSt :=
  if b.dataWriterClosed then .error .writerClosed
  else .ok { b with data := b.data ++ p }

/-- `envelopeDataWriter.Close`: always succeeds. -/
def writerClose (b : BuilderSt) : BuilderSt :=
  { b with dataWriterClosed := true }

/-- `StandardEnvelopeBuilder.Finalize`. -/
def builderFinalize (b : BuilderSt) : Except BuildErr (Envelope × BuilderSt) :=
  if b.finalized then .error .envelopeFinalized
  else
    match b.mailFrom with
    | none => .error .noMailFrom
    | some mf =>
      if b.recipients = [] then .error .noRecipients
      else if b.dataWriterOpen ∧ ¬ b.dataWriterClosed then .error .dataWriterOpen
      else
        .ok (⟨b.id, mf, b.recipients, b.esmtpParams, b.data, true⟩,
             { b with finalized := true })

/-! ## The engine's mutable session state (storage.go engine) -/

/-- The engine's per-session state: the state machine's state `sm`, the
`SessionState.State` mirror `sessState`, and the rest of `SessionState`
together with the current envelope builder and statistics. -/
structure EngineSt where
  sm : State
  sessState : State
  clientHostname : GoStr := []
  tlsActive : Bool := false
  tlsState : Option TLSConnectionState := none
  consecutiveErrors : Nat := 0
  envelope : Option BuilderSt := none
  stats : SessionStats := {}
deriving DecidableEq, Repr

/-! ## Engine responses (storage.go engine) -/

/-- `421 Too many errors, closing connection`. -/
def respTooManyErrors : Response :=
  newResponse 421 (gs "Too many errors, closing connection")

/-- `530 Must issue STARTTLS first`. -/
def resp530StartTLSFirst : Response :=
  newResponse 530 (gs "Must issue STARTTLS first")

/-- `421 Too many transactions`. -/
def resp421TooManyTransactions : Response :=
  newResponse 421 (gs "Too many transactions")

/-- `552 Message size exceeds fixed maximum message size` (MAIL SIZE gate). -/
def resp552FixedMax : Response :=
  newResponse 552 (gs "Message size exceeds fixed maximum message size")

/-- `451 Error receiving message data`. -/
def resp451Receiving : Response :=
  newResponse 451 (gs "Error receiving message data")

/-- `552 Message size exceeds limit` (post-DATA size check). -/
def resp552Limit : Response :=
  newResponse 552 (gs "Message size exceeds limit")

/-- `451 Unable to accept message`. -/
def resp451Accept : Response :=
  newResponse 451 (gs "Unable to accept message")

/-- `451 Error writing message data`. -/
def resp451Write : Response :=
  newResponse 451 (gs "Error writing message data")

/-- `451 Unable to finalize message`. -/
def resp451Finalize : Response :=
  newResponse 451 (gs "Unable to finalize message")

/-- `451 Unable to store message`. -/
def resp451Store : Response :=
  newResponse 451 (gs "Unable to store message")

/-! ## Per-command processing (storage.go engine) -/

/-- What `processOneCommand` returns to `Run`: nil, the parse error, or
`ErrTooManyErrors` (which `Run` sees next to a terminal Aborted machine,
ending the loop in a disconnect). -/
inductive StepErr where
  | tooManyErrors
  | parseFailure
deriving DecidableEq, Repr

/-- `Engine.processOneCommand` on one already-read line: count the command,
parse it, on parse failure bump the error counter and check the error budget
(421 + abort when exhausted, else 500), gate the verb against the state
machine's state (503 on a bad sequence), otherwise dispatch and zero the
error counter on a positive reply.  The per-verb dispatch `handleCommand` is
the `handle` parameter; `config.Hooks` is taken as nil, and the read/write
I/O and its timeouts live outside the model.  Returns the new state, the
replies written, and the error handed back to `Run`. -/
def processOneCommand (handle : Command → EngineSt → EngineSt × Response)
    (cfg : SessionConfig) (st : EngineSt) (line : GoStr) :
    EngineSt × List Response × Option StepErr :=
  let st := { st with stats := { st.stats with commandCount := st.stats.commandCount + 1 } }
  match parseCommand (effectiveMaxCommandLength cfg.limits.maxCommandLength) line with
  | .error _ =>
    let st := { st with consecutiveErrors := st.consecutiveErrors + 1 }
    if checkErrorLimit cfg.limits st.consecutiveErrors then
      ({ st with sm := smAbort st.sm }, [respTooManyErrors], some .tooManyErrors)
    else
      (st, [responseSyntaxError], some .parseFailure)
  | .ok cmd =>
    if ¬ isCommandAllowed st.sm cmd.verb then
      ({ st with consecutiveErrors := st.consecutiveErrors + 1 }, [responseBadSequence], none)
    else
      let (st1, resp) := handle cmd st
      let st2 := if replyIsPositive resp.code then { st1 with consecutiveErrors := 0 } else st1
      (st2, [resp], none)

/-! ## EHLO and HELP handlers (storage.go engine) -/

/-- `Engine.handleEHLO`: store the hostname, transition to Identified, drop
any transaction, and advertise the enabled extensions after the greeting
line. -/
def handleEHLO (cfg : SessionConfig) (cmd : Command) (st : EngineSt) :
    EngineSt × Response :=
  match parseHeloHostname cmd.argument with
  | .error _ => (st, responseSyntaxErrorParams)
  | .ok hostname =>
    let st := { st with clientHostname := hostname,
                        sm := transitionForCommandSt st.sm .EHLO true,
                        sessState := .identified,
                        envelope := none }
    let lines := [cfg.serverHostname ++ gs " Hello " ++ hostname]
    let lines := lines ++
      (if cfg.extensions.SIZE ∧ 0 < cfg.limits.maxMessageSize then
        [gs "SIZE " ++ gs (toString cfg.limits.maxMessageSize)] else [])
    let lines := lines ++
      (if cfg.extensions.STARTTLS ∧ cfg.tlsPolicy ≠ .disabled ∧ ¬ st.tlsActive then
        [gs "STARTTLS"] else [])
    let lines := lines ++ (if cfg.extensions.eightBitMIME then [gs "8BITMIME"] else [])
    let lines := lines ++ (if cfg.extensions.PIPELINING then [gs "PIPELINING"] else [])
    let lines := lines ++
      (if cfg.extensions.ENHANCEDSTATUSCODES then [gs "ENHANCEDSTATUSCODES"] else [])
    let lines := lines ++ (if cfg.extensions.SMTPUTF8 then [gs "SMTPUTF8"] else [])
    let lines := lines ++ (if cfg.extensions.HELP then [gs "HELP"] else [])
    (st, newMultilineResponse 250 lines)

/-- `Engine.handleHELP`: 502 when the HELP extension is off, otherwise the
214 command inventory, appending ` STARTTLS` to the additional-commands line
only when STARTTLS is enabled, TLS policy is not Disabled, a TLSProvider is
configured, and TLS is not already active. -/
def handleHELP (cfg : SessionConfig) (st : EngineSt) : Response :=
  if ¬ cfg.extensions.HELP then responseCommandNotImplemented
  else
    let basicCmds := gs "HELO EHLO MAIL RCPT DATA"
    let additionalCmds :=
      gs "RSET NOOP QUIT HELP" ++
        (if cfg.extensions.STARTTLS ∧ cfg.tlsPolicy ≠ .disabled ∧
            cfg.hasTLSProvider ∧ ¬ st.tlsActive then gs " STARTTLS" else [])
    newMultilineResponse 214
      [gs "Supported commands:", basicCmds, additionalCmds,
       gs "For more information, consult RFC 5321"]

/-- Whether a response's text advertises the word `w`: some line contains it
as a whitespace-separated field.  (EHLO advertises extensions as whole lines,
HELP packs several verbs on one line; this observer covers both.) -/
def responseAdvertisesWord (r : Response) (w : GoStr) : Bool :=
  r.lines.any fun l => (goFields l).contains w

/-! ## MAIL handler (storage.go engine) -/

/-- The verdict of `SenderPolicy.ValidateSender`. -/
structure SenderResult where
  accepted : Bool
  response : Response
deriving DecidableEq, Repr

/-- `fmt.Sscanf(s, "%d", &size)` on its own: skip leading whitespace, an
optional sign, then at least one decimal digit; `none` when no integer can
be scanned (the scan error Go reports is discarded by the caller). -/
def sscanfDec (s : GoStr) : Option Int :=
  let s := goTrimLeftSpace s
  let (neg, rest) :=
    match s with
    | '-' :: t => (true, t)
    | '+' :: t => (false, t)
    | _ => (false, s)
  match rest with
  | c :: _ =>
    if '0' ≤ c ∧ c ≤ '9' then
      let digits := rest.takeWhile fun d => '0' ≤ d ∧ d ≤ '9'
      let v : Nat := digits.foldl (fun acc d => acc * 10 + (d.toNat - 48)) 0
      some (if neg then -(v : Int) else (v : Int))
    else none
  | [] => none

/-- `var size int64; fmt.Sscanf(sizeStr, "%d", &size)` with the error
ignored: the scanned value, or 0 when the scan fails. -/
def sscanfSize (s : GoStr) : Int :=
  (sscanfDec s).getD 0

/-- `Engine.handleMAIL`: TLS-required gate, transaction ceiling, FROM path
parse, the SIZE parameter gate (scan failure leaves the declared size 0),
sender policy, then envelope allocation, `SetMailFrom` and the transition to
MailFrom.  The sender policy collaborator is the `senderPolicy` parameter
(`none` = not configured = accept); `freshId` is the random id
`NewStandardEnvelopeBuilder` draws; the metadata snapshot carries no control
flow and is omitted from the builder model. -/
def handleMAIL (cfg : SessionConfig) (senderPolicy : Option (MailPath → SenderResult))
    (freshId : GoStr) (cmd : Command) (st : EngineSt) : EngineSt × Response :=
  if cfg.tlsPolicy = .required ∧ ¬ st.tlsActive then (st, resp530StartTLSFirst)
  else if 0 < cfg.limits.maxTransactions ∧
      cfg.limits.maxTransactions ≤ (st.stats.transactionCount : Int) then
    (st, resp421TooManyTransactions)
  else
    match parseMailPath cmd.argument (gs "FROM") with
    | .error _ => (st, responseSyntaxErrorParams)
    | .ok path =>
      let afterPolicy : EngineSt × Response :=
        let b0 := newStandardEnvelopeBuilder freshId
        let stEnv := { st with envelope := some b0 }
        match builderSetMailFrom b0 path cmd.params with
        | .error _ => (stEnv, responseTransactionFailed)
        | .ok b1 =>
          let stEnv := { stEnv with envelope := some b1 }
          let stEnv := { stEnv with
            sm := transitionForCommandSt stEnv.sm .MAIL true,
            sessState := .mailFrom }
          (stEnv, responseOK)
      let proceed : EngineSt × Response :=
        match senderPolicy with
        | some pol =>
          let result := pol path
          if ¬ result.accepted then (st, result.response)
          else afterPolicy
        | none => afterPolicy
      if cfg.extensions.SIZE ∧ 0 < cfg.limits.maxMessageSize then
        match mapGet cmd.params (gs "SIZE") with
        | some sizeStr =>
          let size := sscanfSize sizeStr
          if cfg.limits.maxMessageSize < size then (st, resp552FixedMax)
          else proceed
        | none => proceed
      else proceed

/-! ## DATA handler (storage.go engine) -/

/-- `StorageReceipt` (the fields the engine logs). -/
structure StorageReceipt where
  messageID : GoStr := []
  bytesWritten : Int := 0
deriving DecidableEq, Repr

/-- The success tail of `handleDATA`: statistics, DataComplete then Reset,
drop the builder, fire `OnDataEnd`, reply `250 OK, message <id> accepted`.
The returned `Bool` records that `OnDataEnd` fired. -/
def dataSuccess (env : Envelope) (st : EngineSt) : EngineSt × Response × Bool :=
  let stats := { st.stats with
    messageCount := st.stats.messageCount + 1,
    transactionCount := st.stats.transactionCount + 1,
    recipientCount := st.stats.recipientCount + env.recipients.length }
  let st := { st with stats := stats }
  let st := { st with sm := smReset (smDataComplete st.sm),
                      sessState := .identified, envelope := none }
  (st, newResponse 250 (gs "OK, message " ++ env.id ++ gs " accepted"), true)

/-- The shared failure tail of `handleDATA`: `sm.Reset()` (which from the
Data state finds no legal transition and leaves the machine in Data), the
session-state mirror forced to Identified, and the builder dropped. -/
def dataDrop (st : EngineSt) : EngineSt :=
  { st with sm := smReset st.sm, sessState := .identified, envelope := none }

/-- `Engine.handleDATA` from the accepted DATA command on: transition to
Data, send 354 (its write is I/O and always succeeds here), stream the body
(`dataLines` being the CRLF-framed lines the connection yields), enforce the
size ceiling, write the bytes through the builder's data writer, finalize,
and commit through `store` (the `config.Storage` collaborator, `none` when
unset).  `b` is the current envelope builder (`e.envelope`; the engine only
reaches DATA from RcptTo, where it is non-nil — on a nil builder the Go code
would panic).  Returns the state, the final reply, and whether `OnDataEnd`
fired.  Timeout classification of streaming errors is I/O-level; the model
reports the generic 451 receive error. -/
def handleDATA (cfg : SessionConfig)
    (store : Option (Envelope → Except Unit StorageReceipt))
    (dataLines : List GoStr) (b : BuilderSt) (st : EngineSt) :
    EngineSt × Response × Bool :=
  let st := { st with sm := transitionForCommandSt st.sm .DATA true, sessState := .data }
  match readData cfg.limits.maxLineLength cfg.limits.maxMessageSize dataLines with
  | none => (dataDrop st, resp451Receiving, false)
  | some data =>
    if 0 < cfg.limits.maxMessageSize ∧ cfg.limits.maxMessageSize < (data.length : Int) then
      (dataDrop st, resp552Limit, false)
    else
      match builderDataWriter b with
      | .error _ => (dataDrop st, resp451Accept, false)
      | .ok b1 =>
        match writerWrite b1 data with
        | .error _ => (dataDrop st, resp451Write, false)
        | .ok b2 =>
          let b3 := writerClose b2
          match builderFinalize b3 with
          | .error _ => (dataDrop st, resp451Finalize, false)
          | .ok (env, _) =>
            match store with
            | some f =>
              match f env with
              | .error _ => (dataDrop st, resp451Store, false)
              | .ok _ => dataSuccess env st
            | none => dataSuccess env st

/-! ## STARTTLS upgrade (storage.go engine) -/

/-- `Engine.performTLSUpgrade`, success path: the handshake deadline dance
and `TLSProvider.GetConfig` are I/O; `ts` is the negotiated state the
handshake reports.  (On handshake failure the function returns an error
without touching the session state and `Run` disconnects with reason
TLSFailure.)  Marks TLS active, re-initialises the reader, returns the
machine to Greeted, clears the transaction and the client hostname. -/
def performTLSUpgrade (ts : TLSConnectionState) (st : EngineSt) : EngineSt :=
  let st := { st with tlsActive := true, tlsState := some ts }
  let st := { st with sm := smTLSComplete st.sm, sessState := .greeted }
  let st := { st with envelope := none }
  { st with clientHostname := [] }

/-! ## Generic instances and helper lemmas -/

instance {ε α : Type} [DecidableEq ε] [DecidableEq α] : DecidableEq (Except ε α) := fun a b =>
  match a, b with
  | .ok x, .ok y =>
    if h : x = y then .isTrue (congrArg Except.ok h)
    else .isFalse fun c => h (Except.ok.inj c)
  | .error x, .error y =>
    if h : x = y then .isTrue (congrArg Except.error h)
    else .isFalse fun c => h (Except.error.inj c)
  | .ok _, .error _ => .isFalse fun c => Except.noConfusion c
  | .error _, .ok _ => .isFalse fun c => Except.noConfusion c

/-- `goTrimSuffix` either leaves the list alone or removes exactly the given
suffix. -/
lemma goTrimSuffix_cases (s suf : GoStr) :
    goTrimSuffix s suf = s ∨ ∃ t, s = t ++ suf ∧ goTrimSuffix s suf = t := by
  unfold goTrimSuffix
  cases h : suf.isSuffixOf s with
  | false => left; simp [h]
  | true =>
    right
    have hs : suf <:+ s := List.isSuffixOf_iff_suffix.mp h
    obtain ⟨t, ht⟩ := hs
    refine ⟨t, ht.symm, ?_⟩
    simp only [h, if_true]
    rw [← ht, List.length_append, Nat.add_sub_cancel, List.take_left]

/-- The lines whose CRLF-stripped remainder is a single dot. -/
lemma trimCRLF_eq_dot {s : GoStr} (h : trimCRLF s = ['.']) :
    s = ['.'] ∨ s = ['.', '\n'] ∨ s = ['.', '\r', '\n'] ∨ s = ['.', '\n', '\r', '\n'] := by
  unfold trimCRLF at h
  rcases goTrimSuffix_cases s (gs "\r\n") with h1 | ⟨t, hts, h1⟩
  · rw [h1] at h
    rcases goTrimSuffix_cases s (gs "\n") with h2 | ⟨u, hus, h2⟩
    · rw [h2] at h
      exact Or.inl h
    · rw [h2] at h
      subst h
      right; left
      simpa [gs] using hus
  · rw [h1] at h
    rcases goTrimSuffix_cases t (gs "\n") with h2 | ⟨u, hut, h2⟩
    · rw [h2] at h
      subst h
      right; right; left
      simpa [gs] using hts
    · rw [h2] at h
      subst h
      right; right; right
      rw [hts, hut]
      simp [gs]

/-- A dot-stuffed line is never the DATA terminator. -/
lemma isTerminator_stuffLine (l : GoStr) : isTerminator (stuffLine l) = false := by
  rcases l with _ | ⟨c, t⟩
  · rfl
  · by_cases hc : c = '.'
    · subst hc
      have hstuff : stuffLine ('.' :: t) = '.' :: '.' :: t := by
        simp [stuffLine, startsWithChar]
      rw [hstuff, Bool.eq_false_iff]
      intro htrue
      have hdot : trimCRLF ('.' :: '.' :: t) = ['.'] := by
        simpa [isTerminator] using htrue
      rcases trimCRLF_eq_dot hdot with h | h | h | h <;> simp at h
    · have hstuff : stuffLine (c :: t) = c :: t := by
        simp [stuffLine, startsWithChar, hc]
      rw [hstuff, Bool.eq_false_iff]
      intro htrue
      have hdot : trimCRLF (c :: t) = ['.'] := by
        simpa [isTerminator] using htrue
      rcases trimCRLF_eq_dot hdot with h | h | h | h <;>
        exact hc (List.cons.inj h).1

/-- Unstuffing inverts stuffing. -/
lemma unstuffLine_stuffLine (l : GoStr) : unstuffLine (stuffLine l) = l := by
  rcases l with _ | ⟨c, t⟩
  · rfl
  · by_cases hc : c = '.'
    · subst hc; simp [stuffLine, unstuffLine, startsWithChar]
    · simp [stuffLine, unstuffLine, startsWithChar, hc]

/-- One non-terminator step of the uncapped DATA read loop. -/
lemma readDataLoop_cons (l : GoStr) (rest : List GoStr) (acc : GoStr)
    (h : isTerminator l = false) :
    readDataLoop 0 0 (l :: rest) acc = readDataLoop 0 0 rest (acc ++ unstuffLine l) := by
  rw [readDataLoop.eq_def]
  simp [h]

/-- Feeding stuffed lines and then any terminator line to the uncapped read
loop yields the accumulator extended by the original lines. -/
lemma readDataLoop_map_stuffLine (term : GoStr) (hterm : isTerminator term = true) :
    ∀ (lines : List GoStr) (acc : GoStr),
      readDataLoop 0 0 (lines.map stuffLine ++ [term]) acc = some (acc ++ lines.flatten) := by
  intro lines
  induction lines with
  | nil =>
    intro acc
    rw [readDataLoop.eq_def]
    simp [hterm]
  | cons l ls ih =>
    intro acc
    simp only [List.map_cons, List.cons_append]
    rw [readDataLoop_cons _ _ _ (isTerminator_stuffLine l), unstuffLine_stuffLine, ih]
    simp

/-- Under arbitrary line/size caps, whenever the read loop does return a
body for stuffed input it is the accumulator extended by the original
lines — the caps can only abort the read, never corrupt it. -/
lemma readDataLoop_map_stuffLine_sound (maxLine maxMsg : Int) (term : GoStr)
    (hterm : isTerminator term = true) :
    ∀ (lines : List GoStr) (acc body : GoStr),
      readDataLoop maxLine maxMsg (lines.map stuffLine ++ [term]) acc = some body →
      body = acc ++ lines.flatten := by
  intro lines
  induction lines with
  | nil =>
    intro acc body h
    rw [readDataLoop.eq_def] at h
    simp only [List.map_nil, List.nil_append, hterm, if_true] at h
    simp [← Option.some.inj h]
  | cons l ls ih =>
    intro acc body h
    simp only [List.map_cons, List.cons_append] at h
    rw [readDataLoop.eq_def] at h
    dsimp only at h
    rw [isTerminator_stuffLine l] at h
    simp only [Bool.false_eq_true, if_false] at h
    split at h
    · exact Option.noConfusion h
    · split at h
      · exact Option.noConfusion h
      · rw [unstuffLine_stuffLine] at h
        rw [ih _ _ h]
        simp

/-! ## The claims -/

/-- C9.  Dot-stuffing round trip: for every byte line,
`UnstuffLine (StuffLine line) = line` (in particular for lines beginning with
one or more dots); the engine's DATA read path (`readData`), with the
line/size caps at their unlimited `0` setting (the zero value of
`SessionLimits`), fed `StuffLine line` for every body line followed by a
terminator line, reconstructs exactly the concatenation of the original
lines; and under arbitrary caps, whenever the read path does deliver a body
for such input, that body is exactly the concatenation. -/
theorem claim9_dot_stuffing_roundtrip :
    (∀ line : GoStr, unstuffLine (stuffLine line) = line) ∧
    (∀ (lines : List GoStr) (term : GoStr), isTerminator term = true →
      readData 0 0 (lines.map stuffLine ++ [term]) = some lines.flatten) ∧
    (∀ (maxLine maxMsg : Int) (lines : List GoStr) (term body : GoStr),
      isTerminator term = true →
      readData maxLine maxMsg (lines.map stuffLine ++ [term]) = some body →
      body = lines.flatten) := by
  refine ⟨unstuffLine_stuffLine, ?_, ?_⟩
  · intro lines term hterm
    have h := readDataLoop_map_stuffLine term hterm lines []
    simpa [readData] using h
  · intro maxLine maxMsg lines term body hterm h
    have hb := readDataLoop_map_stuffLine_sound maxLine maxMsg term hterm lines [] body h
    simpa using hb

/-- The transition table as §4.3 of the specification lists it, written out
for comparison with the engine's `validTransitions`. -/
def specAllowedTransitions (s : State) : List State :=
  match s with
  | .disconnected => [.connected]
  | .connected => [.greeted, .terminated, .aborted]
  | .greeted => [.identified, .terminating, .aborted]
  | .identified => [.identified, .mailFrom, .startTLS, .terminating, .aborted]
  | .mailFrom => [.rcptTo, .identified, .terminating, .aborted]
  | .rcptTo => [.rcptTo, .data, .identified, .terminating, .aborted]
  | .data => [.dataDone, .aborted]
  | .dataDone => [.identified, .terminating, .aborted]
  | .startTLS => [.greeted, .aborted]
  | .terminating => [.terminated]
  | .terminated => []
  | .aborted => []

/-- C5.  For every current state `s` and target `t`, `Transition` succeeds
exactly when `t` is listed for `s` in the §4.3 table; otherwise it returns
the `StateTransitionError` carrying `s` and `t` and the machine's state is
unchanged (a transition error always reports the unchanged current state,
and `TransitionForCommand` keeps the state on any error); and a failed
command (`success = false`) never changes the state. -/
theorem claim5_transition_table :
    ∀ s t : State,
      ((smTransition s t).isOk = true ↔ t ∈ specAllowedTransitions s) ∧
      (t ∉ specAllowedTransitions s → smTransition s t = .error ⟨s, t⟩) ∧
      (∀ (cmd : CommandVerb) (success : Bool),
        (transitionForCommand s cmd success).2 ≠ none →
          (transitionForCommand s cmd success).1 = s) ∧
      (∀ cmd : CommandVerb, transitionForCommand s cmd false = (s, none)) := by
  decide

/-- C7 counterexample.  The claim says `ParseMailPath` fails on `TO:<>`;
in fact it succeeds (the parser nowhere rejects a null forward-path). -/
theorem claim7_counterexample :
    (parseMailPath (gs "TO:<>") (gs "TO")).isOk = true := by decide

/-- C7 (amended).  The empty path `<>` parses as the null path for both
prefixes: under `FROM` it yields `is_null = true` with an empty address, and
under `TO` it yields the very same null path — `ParseMailPath` itself never
rejects a null forward-path; any RCPT-specific rejection is left to the
recipient-validation collaborator. -/
theorem claim7_null_path_amended :
    parseMailPath (gs "FROM:<>") (gs "FROM") = .ok ⟨[], [], true⟩ ∧
    parseMailPath (gs "TO:<>") (gs "TO") = .ok ⟨[], [], true⟩ := by decide

set_option maxRecDepth 4000 in
/-- C8 counterexample.  With `MaxCommandLength = 0` the engine's parser cap
becomes 512 (the substitution `NewEngineWithConn` performs), and a 513-byte
line IS rejected with `CommandTooLong` — 0 is not "no cap" here. -/
theorem claim8_counterexample :
    (List.replicate 513 'A').length = 513 ∧
    parseCommand (effectiveMaxCommandLength 0) (List.replicate 513 'A') =
      .error .commandTooLong := by decide

/-- C8 (amended).  When `SessionConfig.Limits.MaxCommandLength` is 0 the
engine substitutes the RFC 5321 default of 512 into its parser, so command
lines longer than 512 bytes are rejected with `CommandTooLong`, and lines of
at most 512 bytes are never rejected for length. -/
theorem claim8_command_length_amended :
    effectiveMaxCommandLength 0 = 512 ∧
    ∀ line : GoStr,
      ((512 : Int) < line.length →
        parseCommand (effectiveMaxCommandLength 0) line = .error .commandTooLong) ∧
      ((line.length : Int) ≤ 512 →
        parseCommand (effectiveMaxCommandLength 0) line ≠ .error .commandTooLong) := by
  refine ⟨rfl, fun line => ⟨fun hlong => ?_, fun hshort => ?_⟩⟩
  · have hcond : 0 < effectiveMaxCommandLength 0 ∧
        effectiveMaxCommandLength 0 < (line.length : Int) := by
      refine ⟨by decide, ?_⟩
      simpa [effectiveMaxCommandLength] using hlong
    rw [parseCommand, if_pos hcond]
  · have hcond : ¬ (0 < effectiveMaxCommandLength 0 ∧
        effectiveMaxCommandLength 0 < (line.length : Int)) := by
      rintro ⟨-, hgt⟩
      rw [show effectiveMaxCommandLength 0 = 512 from rfl] at hgt
      omega
    intro hcontra
    rw [parseCommand, if_neg hcond] at hcontra
    dsimp only at hcontra
    repeat' split at hcontra
    all_goals simp_all

/-- C6 counterexample.  `a@b@c.com` contains two `@` characters, yet path
parsing accepts it (`LastIndex` splits at the final `@`, leaving the extra
`@` inside the local part), contradicting "exactly one `@` ...; any address
violating these rules ... is rejected". -/
theorem claim6_counterexample :
    (extractPath (gs "<a@b@c.com>")).isOk = true ∧
    isValidAddress (gs "a@b@c.com") = true ∧
    (gs "a@b@c.com").count '@' = 2 := by decide

/-- `goLastIndexChar` finds nothing exactly when the character is absent. -/
lemma goLastIndexChar_eq_none {s : GoStr} {c : Char} :
    goLastIndexChar s c = none ↔ c ∉ s := by
  induction s with
  | nil => simp [goLastIndexChar]
  | cons a t ih =>
    rw [goLastIndexChar]
    cases h : goLastIndexChar t c with
    | some i =>
      have hc : c ∈ t := by
        by_contra hnot
        rw [ih.mpr hnot] at h
        exact Option.noConfusion h
      simp [hc]
    | none =>
      by_cases hac : a = c
      · simp [hac]
      · have hct : c ∉ t := ih.mp h
        simp [hac, hct]
        exact fun hca => hac hca.symm

/-- A successful `goLastIndexChar` splits the string at the LAST occurrence:
everything to the right is free of the character. -/
lemma goLastIndexChar_some {s : GoStr} {c : Char} {i : Nat}
    (h : goLastIndexChar s c = some i) :
    ∃ a b : GoStr, s = a ++ c :: b ∧ a.length = i ∧ c ∉ b := by
  induction s generalizing i with
  | nil => simp [goLastIndexChar] at h
  | cons x t ih =>
    rw [goLastIndexChar] at h
    cases ht : goLastIndexChar t c with
    | some j =>
      rw [ht] at h
      injection h with h'
      obtain ⟨a, b, hab, hlen, hnb⟩ := ih ht
      exact ⟨x :: a, b, by rw [hab]; rfl, by simp [hlen, ← h'], hnb⟩
    | none =>
      rw [ht] at h
      by_cases hx : x = c
      · rw [if_pos hx] at h
        injection h with h'
        exact ⟨[], t, by rw [hx]; rfl, by simp [← h'], goLastIndexChar_eq_none.mp ht⟩
      · rw [if_neg hx] at h
        exact Option.noConfusion h

/-- Conversely, the last occurrence's index is the length of the left part. -/
lemma goLastIndexChar_append (a b : GoStr) (c : Char) (hb : c ∉ b) :
    goLastIndexChar (a ++ c :: b) c = some a.length := by
  induction a with
  | nil =>
    rw [List.nil_append, goLastIndexChar, goLastIndexChar_eq_none.mpr hb]
    simp
  | cons x t ih =>
    rw [List.cons_append, goLastIndexChar, ih]
    simp

/-- The domain-character set `[A-Za-z0-9.-]` as the specification words it. -/
def SpecDomainChar (c : Char) : Prop :=
  ('A' ≤ c ∧ c ≤ 'Z') ∨ ('a' ≤ c ∧ c ≤ 'z') ∨ ('0' ≤ c ∧ c ≤ '9') ∨ c = '.' ∨ c = '-'

/-- The amended address-validity condition: the address splits at its LAST
`@` (the local part may itself contain further `@` characters) into a
non-empty local part and a non-empty domain; every domain character lies in
`[A-Za-z0-9.-]`; and the domain neither begins nor ends with `.` or `-`. -/
def ValidAddressAmended (addr : GoStr) : Prop :=
  ∃ localPart dom : GoStr,
    addr = localPart ++ '@' :: dom ∧
    localPart ≠ [] ∧ dom ≠ [] ∧ '@' ∉ dom ∧
    (∀ c ∈ dom, SpecDomainChar c) ∧
    dom.head? ≠ some '.' ∧ dom.getLast? ≠ some '.' ∧
    dom.head? ≠ some '-' ∧ dom.getLast? ≠ some '-'

lemma isValidDomainChar_iff (c : Char) : isValidDomainChar c = true ↔ SpecDomainChar c := by
  simp only [isValidDomainChar, SpecDomainChar, Bool.or_eq_true, decide_eq_true_eq,
    Bool.and_eq_true]
  tauto

lemma startsWithChar_eq_false_iff (s : GoStr) (c : Char) :
    startsWithChar s c = false ↔ s.head? ≠ some c := by
  cases s <;> simp [startsWithChar]

lemma endsWithChar_eq_false_iff (s : GoStr) (c : Char) :
    endsWithChar s c = false ↔ s.getLast? ≠ some c := by
  rw [endsWithChar]
  cases h : s.getLast? <;> simp

/-- C6 (amended).  `isValidAddress` accepts an address exactly when it meets
the amended condition: at least one `@`, the split being taken at the LAST
`@` (so a local part containing further `@` characters is accepted), local
part and domain non-empty, domain characters drawn from `[A-Za-z0-9.-]`, and
the domain neither beginning nor ending with `.` or `-`. -/
theorem claim6_address_validation_amended :
    ∀ addr : GoStr, isValidAddress addr = true ↔ ValidAddressAmended addr := by
  intro addr
  constructor
  · intro h
    by_cases hnil : addr = []
    · rw [hnil] at h
      simp [isValidAddress] at h
    simp only [isValidAddress] at h
    rw [if_neg hnil] at h
    cases hidx : goLastIndexChar addr '@' with
    | none => rw [hidx] at h; simp at h
    | some atIdx =>
      rw [hidx] at h
      dsimp only at h
      obtain ⟨a, b, hab, hlen, hnb⟩ := goLastIndexChar_some hidx
      have htake : addr.take atIdx = a := by
        rw [hab]; exact List.take_left' hlen
      have hdrop : addr.drop (atIdx + 1) = b := by
        rw [hab, List.append_cons]
        exact List.drop_left' (by simp [hlen])
      split at h
      next h01 => simp at h
      next h01 =>
        try dsimp only at h
        rw [htake, hdrop] at h
        split at h
        next hloc => simp at h
        next hloc =>
          push_neg at hloc
          split at h
          next hdots => simp at h
          next hdots =>
            split at h
            next hdash => simp at h
            next hdash =>
              rw [Bool.or_eq_true] at hdots hdash
              push_neg at hdots hdash
              have hd1 := (startsWithChar_eq_false_iff b '.').mp
                (Bool.not_eq_true _ ▸ hdots.1 : startsWithChar b '.' = false)
              have hd2 := (endsWithChar_eq_false_iff b '.').mp
                (Bool.not_eq_true _ ▸ hdots.2 : endsWithChar b '.' = false)
              have hh1 := (startsWithChar_eq_false_iff b '-').mp
                (Bool.not_eq_true _ ▸ hdash.1 : startsWithChar b '-' = false)
              have hh2 := (endsWithChar_eq_false_iff b '-').mp
                (Bool.not_eq_true _ ▸ hdash.2 : endsWithChar b '-' = false)
              refine ⟨a, b, hab, hloc.1, hloc.2, hnb, ?_, hd1, hd2, hh1, hh2⟩
              intro c hc
              exact (isValidDomainChar_iff c).mp (List.all_eq_true.mp h c hc)
  · rintro ⟨a, b, hab, ha, hb, hnb, hdomchars, hd1, hd2, hh1, hh2⟩
    have hnil : addr ≠ [] := by
      rw [hab]; simp
    have hidx : goLastIndexChar addr '@' = some a.length := by
      rw [hab]; exact goLastIndexChar_append a b '@' hnb
    have hlena : addr.length = a.length + b.length + 1 := by
      rw [hab]; simp; omega
    have htake : addr.take a.length = a := by
      rw [hab]; exact List.take_left' rfl
    have hdrop : addr.drop (a.length + 1) = b := by
      rw [hab, List.append_cons]
      exact List.drop_left' (by simp)
    have h01 : ¬ (a.length = 0 ∨ a.length = addr.length - 1) := by
      rintro (h0 | h1)
      · exact ha (List.length_eq_zero.mp h0)
      · rw [hlena] at h1
        have : b.length = 0 := by omega
        exact hb (List.length_eq_zero.mp this)
    simp only [isValidAddress]
    rw [if_neg hnil, hidx]
    dsimp only
    rw [if_neg h01]
    rw [htake, hdrop]
    rw [if_neg (by rintro (h | h); exact ha h; exact hb h)]
    have hsw1 : startsWithChar b '.' = false := (startsWithChar_eq_false_iff b '.').mpr hd1
    have hew1 : endsWithChar b '.' = false := (endsWithChar_eq_false_iff b '.').mpr hd2
    have hsw2 : startsWithChar b '-' = false := (startsWithChar_eq_false_iff b '-').mpr hh1
    have hew2 : endsWithChar b '-' = false := (endsWithChar_eq_false_iff b '-').mpr hh2
    rw [if_neg (by simp [hsw1, hew1]), if_neg (by simp [hsw2, hew2])]
    rw [List.all_eq_true]
    intro c hc
    exact (isValidDomainChar_iff c).mpr (hdomchars c hc)

/-! ## Concrete fixtures shared by the remaining claims -/

/-- The wire line `MAIL FROM:<a@b.c>` plus CRLF (20 bytes). -/
def mailFromLine : GoStr := gs "MAIL FROM:<a@b.c>\r\n"

/-- What `ParseCommand` makes of `mailFromLine`. -/
def mailFromCmd : Command :=
  { verb := .MAIL, raw := gs "MAIL FROM:<a@b.c>",
    argument := gs "FROM:<a@b.c>", params := [] }

/-- A dispatch stub for scenarios that never reach the per-verb dispatch. -/
def nullHandle : Command → EngineSt → EngineSt × Response :=
  fun _ st => (st, responseOK)

lemma parseCommand_mailFromLine (maxLen : Int)
    (hguard : ¬ (0 < maxLen ∧ maxLen < (mailFromLine.length : Int))) :
    parseCommand maxLen mailFromLine = .ok mailFromCmd := by
  rw [parseCommand, if_neg hguard]
  rfl

/-- For any state whose machine sits in Greeted, the `MAIL FROM:<a@b.c>` line
parses but is not allowed, so the engine replies only 503 and returns no
error. -/
lemma processOneCommand_mail_in_greeted
    (handle : Command → EngineSt → EngineSt × Response) (cfg : SessionConfig)
    (st : EngineSt) (hsm : st.sm = .greeted)
    (hguard : ¬ (0 < effectiveMaxCommandLength cfg.limits.maxCommandLength ∧
      effectiveMaxCommandLength cfg.limits.maxCommandLength < (mailFromLine.length : Int))) :
    (processOneCommand handle cfg st mailFromLine).2 = ([responseBadSequence], none) := by
  simp only [processOneCommand]
  rw [parseCommand_mailFromLine _ hguard]
  dsimp only
  rw [hsm]
  rw [if_pos (show ¬ isCommandAllowed .greeted mailFromCmd.verb = true by decide)]

/-! ## C1: the error budget -/

/-- Config with `MaxErrors = 1` for the C1 counterexample. -/
def c1Config : SessionConfig := { limits := { maxErrors := 1 } }

/-- A freshly greeted session (zero consecutive errors). -/
def c1State : EngineSt := { sm := .greeted, sessState := .greeted }

/-- C1 counterexample.  With `MaxErrors = 1`, a single bad-sequence error
(MAIL before EHLO) drives the consecutive-error counter to the limit —
`count >= MaxErrors` holds — yet the engine replies 503, does not reply 421,
does not abort the state machine, and returns no error to the loop: the
error-budget check simply never runs on the bad-sequence path. -/
theorem claim1_counterexample :
    (processOneCommand nullHandle c1Config c1State mailFromLine).1.consecutiveErrors = 1 ∧
    checkErrorLimit c1Config.limits
      (processOneCommand nullHandle c1Config c1State mailFromLine).1.consecutiveErrors = true ∧
    (processOneCommand nullHandle c1Config c1State mailFromLine).2.1 = [responseBadSequence] ∧
    responseBadSequence.code = 503 ∧
    (processOneCommand nullHandle c1Config c1State mailFromLine).2.2 = none ∧
    (processOneCommand nullHandle c1Config c1State mailFromLine).1.sm = .greeted := by
  decide

/-- C1 (amended).  When a SYNTAX/PARSE error raises the consecutive-error
counter (fed by both parse and bad-sequence errors) to `>= MaxErrors` with
`MaxErrors > 0`, the engine replies `421 Too many errors, closing
connection`, aborts the state machine, and returns `ErrTooManyErrors` to the
loop (which disconnects, the machine now being terminal).  A bad-sequence
error never triggers this check (see the counterexample): exhaustion is only
detected on the next parse error. -/
theorem claim1_error_budget_amended
    (handle : Command → EngineSt → EngineSt × Response) (cfg : SessionConfig)
    (st : EngineSt) (line : GoStr)
    (hparse : (parseCommand (effectiveMaxCommandLength cfg.limits.maxCommandLength) line).isOk
      = false)
    (hmax : 0 < cfg.limits.maxErrors)
    (hbudget : cfg.limits.maxErrors ≤ (st.consecutiveErrors + 1 : Int)) :
    processOneCommand handle cfg st line =
      ({ st with
          stats := { st.stats with commandCount := st.stats.commandCount + 1 },
          consecutiveErrors := st.consecutiveErrors + 1,
          sm := smAbort st.sm },
        [respTooManyErrors], some .tooManyErrors) ∧
    respTooManyErrors.code = 421 ∧
    (∀ s : State, s ≠ .disconnected → s ≠ .terminating → s ≠ .terminated → s ≠ .aborted →
      smAbort s = .aborted) := by
  obtain ⟨e, he⟩ : ∃ e, parseCommand (effectiveMaxCommandLength cfg.limits.maxCommandLength)
      line = .error e := by
    cases hp : parseCommand (effectiveMaxCommandLength cfg.limits.maxCommandLength) line with
    | ok c => rw [hp] at hparse; exact absurd hparse (by simp [Except.isOk, Except.toBool])
    | error e => exact ⟨e, rfl⟩
  have hchk : checkErrorLimit cfg.limits (st.consecutiveErrors + 1) = true := by
    simp only [checkErrorLimit, decide_eq_true_eq, Bool.and_eq_true]
    exact ⟨hmax, by exact_mod_cast hbudget⟩
  refine ⟨?_, rfl, by decide⟩
  simp only [processOneCommand]
  rw [he]
  dsimp only
  rw [if_pos hchk]

/-- Config `MaxErrors = 3` for the C1 witness. -/
def c1wConfig : SessionConfig := { limits := { maxErrors := 3 } }

/-- A session two errors deep for the C1 witness. -/
def c1wState : EngineSt :=
  { sm := .identified, sessState := .identified, consecutiveErrors := 2 }

/-- C1 witness: a concrete third parse error (`BOGUS`) exhausts a budget of
3: 421, abort, `ErrTooManyErrors`. -/
theorem claim1_error_budget_amended_witness :
    processOneCommand nullHandle c1wConfig c1wState (gs "BOGUS\r\n") =
      ({ c1wState with
          stats := { c1wState.stats with commandCount := c1wState.stats.commandCount + 1 },
          consecutiveErrors := c1wState.consecutiveErrors + 1,
          sm := smAbort c1wState.sm },
        [respTooManyErrors], some .tooManyErrors) ∧
    respTooManyErrors.code = 421 ∧
    (∀ s : State, s ≠ .disconnected → s ≠ .terminating → s ≠ .terminated → s ≠ .aborted →
      smAbort s = .aborted) :=
  claim1_error_budget_amended nullHandle c1wConfig c1wState (gs "BOGUS\r\n")
    (by decide) (by decide) (by decide)

/-! ## C2: EHLO versus HELP advertisement -/

/-- STARTTLS enabled, policy Optional, HELP enabled, but no TLSProvider. -/
def c2Config : SessionConfig :=
  { tlsPolicy := .optional, hasTLSProvider := false,
    extensions := { STARTTLS := true, HELP := true } }

/-- An identified plain-text session. -/
def c2State : EngineSt := { sm := .identified, sessState := .identified }

/-- The parsed `EHLO client.example.com`. -/
def c2EhloCmd : Command :=
  { verb := .EHLO, raw := gs "EHLO client.example.com",
    argument := gs "client.example.com", params := [] }

/-- C2, demonstrating the divergence: with the STARTTLS extension on, TLS
policy not Disabled, TLS inactive and `TLSProvider == nil`, EHLO advertises
STARTTLS but HELP omits it — the sets differ, although `handleHELP`'s own
comment says it uses "the same conditions as EHLO advertisement". -/
theorem claim2_ehlo_help_divergence :
    parseCommand 512 (gs "EHLO client.example.com\r\n") = .ok c2EhloCmd ∧
    responseAdvertisesWord (handleEHLO c2Config c2EhloCmd c2State).2 (gs "STARTTLS") = true ∧
    responseAdvertisesWord (handleHELP c2Config c2State) (gs "STARTTLS") = false ∧
    c2Config.extensions.STARTTLS = true ∧
    c2Config.tlsPolicy ≠ .disabled ∧
    c2State.tlsActive = false ∧
    c2Config.hasTLSProvider = false := by
  decide

/-! ## C3: storage failure during DATA -/

/-- Sender `a@b.example`. -/
def c3MailFromPath : MailPath := { address := gs "a@b.example", sourceRoute := [], isNull := false }

/-- Recipient `u@x.example`. -/
def c3RcptPath : MailPath := { address := gs "u@x.example", sourceRoute := [], isNull := false }

/-- The envelope builder after MAIL and one RCPT. -/
def c3Builder : BuilderSt :=
  { id := gs "e1", mailFrom := some c3MailFromPath, recipients := [c3RcptPath] }

/-- The session at RcptTo, ready for DATA. -/
def c3State : EngineSt := { sm := .rcptTo, sessState := .rcptTo, envelope := some c3Builder }

/-- A Storage whose `Store` always fails. -/
def c3FailingStore : Envelope → Except Unit StorageReceipt := fun _ => .error ()

/-- One body line and the terminator. -/
def c3DataLines : List GoStr := [gs "hello\r\n", gs ".\r\n"]

/-- C3, evaluated at the failing input (a completed DATA transaction whose
`Storage.Store` errors).  The handler replies `451 Unable to store message`
(never a 2xx; the only other reply of the transaction was the 354), drops
the envelope builder, does not touch the statistics, and does not fire
`on_data_end` — all as the claim says — BUT the state machine is not reset
to Identified: `sm.Reset()` runs while the machine is in Data, the
transition Data→Identified is outside the table and fails silently, so only
the `SessionState.State` mirror reads Identified while the machine itself
stays in Data (from where every later command is answered 503). -/
theorem claim3_storage_failure_divergence :
    (handleDATA {} (some c3FailingStore) c3DataLines c3Builder c3State).2.1 = resp451Store ∧
    resp451Store = newResponse 451 (gs "Unable to store message") ∧
    ¬ (200 ≤ (handleDATA {} (some c3FailingStore) c3DataLines c3Builder c3State).2.1.code ∧
       (handleDATA {} (some c3FailingStore) c3DataLines c3Builder c3State).2.1.code < 300) ∧
    responseStartMailInput.code = 354 ∧
    (handleDATA {} (some c3FailingStore) c3DataLines c3Builder c3State).1.envelope = none ∧
    (handleDATA {} (some c3FailingStore) c3DataLines c3Builder c3State).1.sessState =
      .identified ∧
    (handleDATA {} (some c3FailingStore) c3DataLines c3Builder c3State).1.stats =
      c3State.stats ∧
    (handleDATA {} (some c3FailingStore) c3DataLines c3Builder c3State).2.2 = false ∧
    (handleDATA {} (some c3FailingStore) c3DataLines c3Builder c3State).1.sm = .data ∧
    (State.data ≠ State.identified) := by
  decide

/-! ## C4: state after a successful STARTTLS upgrade -/

/-- C4.  After a successful STARTTLS upgrade the client hostname is cleared,
TLS is active, any in-flight envelope builder is dropped, and both the
session-state mirror and the state machine read Greeted; consequently a MAIL
command before a new EHLO (here `MAIL FROM:<a@b.c>`, under any command-length
cap that admits its 20 bytes) is answered with only `503 Bad sequence of
commands`. -/
theorem claim4_post_starttls_reset
    (ts : TLSConnectionState) (st : EngineSt)
    (handle : Command → EngineSt → EngineSt × Response) (cfg : SessionConfig)
    (hsm : st.sm = .startTLS)
    (hguard : ¬ (0 < effectiveMaxCommandLength cfg.limits.maxCommandLength ∧
      effectiveMaxCommandLength cfg.limits.maxCommandLength < (mailFromLine.length : Int))) :
    (performTLSUpgrade ts st).clientHostname = [] ∧
    (performTLSUpgrade ts st).tlsActive = true ∧
    (performTLSUpgrade ts st).envelope = none ∧
    (performTLSUpgrade ts st).sessState = .greeted ∧
    (performTLSUpgrade ts st).sm = .greeted ∧
    (processOneCommand handle cfg (performTLSUpgrade ts st) mailFromLine).2 =
      ([responseBadSequence], none) ∧
    responseBadSequence.code = 503 := by
  have hsm' : (performTLSUpgrade ts st).sm = .greeted := by
    show smTLSComplete st.sm = .greeted
    rw [hsm]
    decide
  exact ⟨rfl, rfl, rfl, rfl, hsm',
    processOneCommand_mail_in_greeted handle cfg _ hsm' hguard, rfl⟩

/-- The pre-upgrade session for the C4 witness: mid-transaction state dressed
onto a machine at StartTLS, with a stale hostname and an envelope. -/
def c4State : EngineSt :=
  { sm := .startTLS, sessState := .startTLS,
    clientHostname := gs "old.example",
    envelope := some (newStandardEnvelopeBuilder (gs "w1")) }

/-- C4 witness at a concrete upgrade. -/
theorem claim4_post_starttls_reset_witness :
    (performTLSUpgrade {} c4State).clientHostname = [] ∧
    (performTLSUpgrade {} c4State).tlsActive = true ∧
    (performTLSUpgrade {} c4State).envelope = none ∧
    (performTLSUpgrade {} c4State).sessState = .greeted ∧
    (performTLSUpgrade {} c4State).sm = .greeted ∧
    (processOneCommand nullHandle {} (performTLSUpgrade {} c4State) mailFromLine).2 =
      ([responseBadSequence], none) ∧
    responseBadSequence.code = 503 :=
  claim4_post_starttls_reset {} c4State nullHandle {} rfl (by decide)

/-! ## C10: an unparseable SIZE parameter -/

/-- C10.  When a MAIL command carries a SIZE parameter whose value the
`fmt.Sscanf(_, "%d", _)` scan cannot parse, with the SIZE extension enabled
and `MaxMessageSize > 0`, the scan failure is ignored and the declared size
is treated as 0, so `handleMAIL` never replies the 552 size rejection:
provided the TLS and transaction gates pass, the FROM path parses and the
sender policy accepts, processing continues through sender validation to
envelope allocation and the `250 OK`. -/
theorem claim10_size_scan_failure
    (cfg : SessionConfig) (p : MailPath → SenderResult)
    (freshId : GoStr) (cmd : Command) (st : EngineSt) (v : GoStr) (path : MailPath)
    (hSIZE : cfg.extensions.SIZE = true)
    (hMax : 0 < cfg.limits.maxMessageSize)
    (hv : mapGet cmd.params (gs "SIZE") = some v)
    (hscan : sscanfDec v = none)
    (hTLS : ¬ (cfg.tlsPolicy = .required ∧ ¬ st.tlsActive = true))
    (hTxn : ¬ (0 < cfg.limits.maxTransactions ∧
      cfg.limits.maxTransactions ≤ (st.stats.transactionCount : Int)))
    (hPath : parseMailPath cmd.argument (gs "FROM") = .ok path)
    (hAcc : (p path).accepted = true) :
    sscanfSize v = 0 ∧
    handleMAIL cfg (some p) freshId cmd st =
      ({ st with
          envelope := some { newStandardEnvelopeBuilder freshId with
            mailFrom := some path, esmtpParams := cmd.params },
          sm := transitionForCommandSt st.sm .MAIL true,
          sessState := .mailFrom },
        responseOK) ∧
    responseOK.code = 250 ∧ resp552FixedMax.code = 552 ∧
    responseOK ≠ resp552FixedMax := by
  have hsize : sscanfSize v = 0 := by simp [sscanfSize, hscan]
  refine ⟨hsize, ?_, rfl, rfl, by decide⟩
  simp only [handleMAIL]
  rw [if_neg hTLS, if_neg hTxn, hPath]
  dsimp only
  rw [if_pos ⟨hSIZE, hMax⟩, hv]
  dsimp only
  rw [hsize, if_neg (by omega)]
  rw [if_neg (not_not_intro hAcc)]
  have hset : builderSetMailFrom (newStandardEnvelopeBuilder freshId) path cmd.params =
      .ok { newStandardEnvelopeBuilder freshId with
        mailFrom := some path, esmtpParams := cmd.params } := rfl
  rw [hset]

/-- SIZE on, 1000-byte ceiling, for the C10 witness. -/
def c10Config : SessionConfig :=
  { limits := { maxMessageSize := 1000 }, extensions := { SIZE := true } }

/-- An accept-everything sender policy. -/
def c10Policy : MailPath → SenderResult :=
  fun _ => { accepted := true, response := responseOK }

/-- The parsed `MAIL FROM:<a@b.c> SIZE=abc`. -/
def c10Cmd : Command :=
  { verb := .MAIL, raw := gs "MAIL FROM:<a@b.c> SIZE=abc",
    argument := gs "FROM:<a@b.c> SIZE=abc", params := [(gs "SIZE", gs "abc")] }

/-- The sender path of `c10Cmd`. -/
def c10Path : MailPath := { address := gs "a@b.c", sourceRoute := [], isNull := false }

/-- C10 witness at `SIZE=abc` (and checking the fixture really is what the
parser produces for that wire line). -/
theorem claim10_size_scan_failure_witness :
    (parseCommand 512 (gs "MAIL FROM:<a@b.c> SIZE=abc\r\n") = .ok c10Cmd ∧
      parseMailPath c10Cmd.argument (gs "FROM") = .ok c10Path) ∧
    sscanfSize (gs "abc") = 0 ∧
    handleMAIL c10Config (some c10Policy) (gs "id1") c10Cmd c2State =
      ({ c2State with
          envelope := some { newStandardEnvelopeBuilder (gs "id1") with
            mailFrom := some c10Path, esmtpParams := c10Cmd.params },
          sm := transitionForCommandSt c2State.sm .MAIL true,
          sessState := .mailFrom },
        responseOK) ∧
    responseOK.code = 250 ∧ resp552FixedMax.code = 552 ∧
    responseOK ≠ resp552FixedMax :=
  ⟨by decide,
    claim10_size_scan_failure c10Config c10Policy (gs "id1") c10Cmd c2State
      (gs "abc") c10Path (by decide) (by decide) (by decide) (by decide)
      (by decide) (by decide) (by decide) (by decide)⟩

end Icesmtp
